import Mathlib

/-!
Verification of the dev-events data-access layer.

Shallow embedding of:
  * src/database/event.model.ts  — pre-save hook: slug generation, date and
    time normalization;
  * src/database/booking.model.ts — pre-save / pre-findOneAndUpdate /
    pre-updateOne hooks: referential integrity and query-time setters;
  * src/lib/mongodb.ts and src/unnamed/part_000 — the two revisions of the
    memoizing connection helper.

Strings are modelled as Lean `String` (lists of characters); the regular
expressions of the source are embedded as decidable predicates over the
character list; JavaScript `Date` component normalization is embedded as
arithmetic on (year, month, day) triples; the document store is a list.
-/

namespace DevEvents

/-! ### Characters and digits -/

/-- Value of a decimal digit character, as JavaScript `parseInt` sees it
(`c.toNat - 48`). -/
def dval (c : Char) : Nat := c.toNat - 48

/-- The regex character class `\d` (code points 48–57). -/
def isDig (c : Char) : Bool := decide (48 ≤ c.toNat) && decide (c.toNat ≤ 57)

/-- The decimal digit character for a value `0 ≤ k ≤ 9`. -/
def digitChar (k : Nat) : Char := Char.ofNat (48 + k)

/-- Decimal rendering of a natural number, fuel-recursive
(JavaScript `String(n)` for integer `n ≥ 0`). -/
def natDigits : Nat → Nat → List Char
  | 0, _ => []
  | fuel + 1, n => if n < 10 then [digitChar n] else natDigits fuel (n / 10) ++ [digitChar (n % 10)]

/-- Decimal digit list of `n` with sufficient fuel. -/
def natDigitsL (n : Nat) : List Char := natDigits (n + 1) n

/-- JavaScript `String(n)` for a natural number. -/
def natToString (n : Nat) : String := ⟨natDigitsL n⟩

/-- Numeric value of a digit list (radix-10 fold). -/
def digitsVal (l : List Char) : Nat := l.foldl (fun acc c => acc * 10 + dval c) 0

/-- `String(n).padStart(2, "0")` as a character list, for `n` a natural. -/
def pad2L (n : Nat) : String := if n < 10 then ⟨['0', digitChar n]⟩ else ⟨natDigitsL n⟩

theorem dval_digitChar {k : Nat} (hk : k < 10) : dval (digitChar k) = k := by
  interval_cases k <;> decide

theorem isDig_digitChar {k : Nat} (hk : k < 10) : isDig (digitChar k) = true := by
  interval_cases k <;> decide

theorem isDig_iff {c : Char} : isDig c = true ↔ 48 ≤ c.toNat ∧ c.toNat ≤ 57 := by
  simp [isDig]

theorem digitsVal_roundtrip : ∀ fuel n, n < fuel → digitsVal (natDigits fuel n) = n := by
  intro fuel
  induction fuel with
  | zero => intro n hn; omega
  | succ f ih =>
    intro n hn
    rw [natDigits]
    by_cases h10 : n < 10
    · rw [if_pos h10]
      simp [digitsVal, dval_digitChar h10]
    · rw [if_neg h10]
      have hdiv : n / 10 < f := by omega
      have hmod : n % 10 < 10 := Nat.mod_lt _ (by omega)
      simp only [digitsVal, List.foldl_append, List.foldl_cons, List.foldl_nil]
      have := ih (n / 10) hdiv
      simp only [digitsVal] at this
      rw [this, dval_digitChar hmod]
      omega

theorem natDigitsL_roundtrip (n : Nat) : digitsVal (natDigitsL n) = n :=
  digitsVal_roundtrip (n + 1) n (Nat.lt_succ_self n)

theorem natDigitsL_injective {a b : Nat} (h : natDigitsL a = natDigitsL b) : a = b := by
  have := natDigitsL_roundtrip a
  rw [h, natDigitsL_roundtrip] at this
  omega

/-- Two-digit decimal rendering. -/
theorem natDigitsL_two {n : Nat} (h1 : 10 ≤ n) (h2 : n ≤ 99) :
    natDigitsL n = [digitChar (n / 10), digitChar (n % 10)] := by
  show natDigits (n + 1) n = _
  obtain ⟨g, hg⟩ : ∃ g, n + 1 = g + 1 := ⟨n, rfl⟩
  rw [hg, natDigits, if_neg (by omega)]
  obtain ⟨g2, hg2⟩ : ∃ g2, g = g2 + 1 := ⟨g - 1, by omega⟩
  rw [hg2, natDigits, if_pos (by omega)]
  simp

/-- Four-digit decimal rendering. -/
theorem natDigitsL_four {n : Nat} (h1 : 1000 ≤ n) (h2 : n ≤ 9999) :
    natDigitsL n =
      [digitChar (n / 1000), digitChar (n / 100 % 10), digitChar (n / 10 % 10),
        digitChar (n % 10)] := by
  show natDigits (n + 1) n = _
  obtain ⟨g, hg⟩ : ∃ g, n + 1 = g + 1 := ⟨n, rfl⟩
  rw [hg, natDigits, if_neg (by omega)]
  obtain ⟨g2, hg2⟩ : ∃ g2, g = g2 + 1 := ⟨g - 1, by omega⟩
  rw [hg2, natDigits, if_neg (by omega)]
  obtain ⟨g3, hg3⟩ : ∃ g3, g2 = g3 + 1 := ⟨g2 - 1, by omega⟩
  rw [hg3, natDigits, if_neg (by omega)]
  obtain ⟨g4, hg4⟩ : ∃ g4, g3 = g4 + 1 := ⟨g3 - 1, by omega⟩
  rw [hg4, natDigits, if_pos (by omega)]
  have e1 : n / 10 / 10 = n / 100 := by omega
  have e3 : n / 10 / 10 % 10 = n / 100 % 10 := by omega
  rw [e3, e1]
  have e2 : n / 100 / 10 = n / 1000 := by omega
  rw [e2]
  simp

/-! ### JavaScript `Date(year, monthIndex, day)` component semantics

`new Date(y, m0, d)` in ECMAScript first remaps a year argument in 0..99 to
1900+y, then normalizes the out-of-range month index and day-of-month by
rolling over into adjacent months/years (proleptic Gregorian calendar).
`getFullYear`/`getMonth`/`getDate` return the components of the normalized
date.  `isNaN(date.getTime())` is always false in the range reachable from a
`\d{4}-\d{2}-\d{2}` input (years stay far below the ±275760 limit), so it is
not modelled. -/

/-- Proleptic Gregorian leap-year rule (what ECMAScript date arithmetic
implements). -/
def isLeap (y : Int) : Bool := (Int.emod y 4 == 0 && Int.emod y 100 != 0) || Int.emod y 400 == 0

/-- Length of the 0-based month `m` of year `y`; months ≥ 12 do not occur. -/
def monthLen (y : Int) (m : Nat) : Int :=
  match m with
  | 0 => 31
  | 1 => if isLeap y then 29 else 28
  | 2 => 31
  | 3 => 30
  | 4 => 31
  | 5 => 30
  | 6 => 31
  | 7 => 31
  | 8 => 30
  | 9 => 31
  | 10 => 30
  | _ => 31

/-- Normalize an out-of-range day-of-month by walking across month
boundaries, exactly as the day-count arithmetic of ECMAScript `MakeDay`
resolves it.  `m` is the 0-based month (kept in 0..11), `d` the 1-based day.
The fuel bounds the walk; every use in this file supplies enough fuel for
its argument range. -/
def dayNorm : Nat → Int → Nat → Int → Int × Nat × Int
  | 0, y, m, d => (y, m, d)
  | fuel + 1, y, m, d =>
    if d < 1 then
      dayNorm fuel (if m = 0 then y - 1 else y) (if m = 0 then 11 else m - 1)
        (d + monthLen (if m = 0 then y - 1 else y) (if m = 0 then 11 else m - 1))
    else if monthLen y m < d then
      dayNorm fuel (if m = 11 then y + 1 else y) (if m = 11 then 0 else m + 1)
        (d - monthLen y m)
    else (y, m, d)

/-- The two-digit-year remapping of the `Date(y, m, d)` constructor:
`0 ≤ y ≤ 99` is read as `1900 + y`. -/
def jsMapYear (y : Int) : Int := if 0 ≤ y ∧ y ≤ 99 then y + 1900 else y

/-- `(getFullYear, getMonth, getDate)` of `new Date(y, m0, d)`: remap the
year, split the month index into a year offset (floor division) and a
0-based month (floor remainder; `emod` coincides with the floor remainder
for the positive modulus 12), then normalize the day. -/
def jsDateComponents (y m0 d : Int) : Int × Nat × Int :=
  dayNorm 50 (jsMapYear y + Int.fdiv m0 12) (Int.emod m0 12).toNat d

/-- The validity test of the pre-save date hook:
`getFullYear() == year && getMonth() == month - 1 && getDate() == day`
for `new Date(year, month - 1, day)`. -/
def jsDateCheck (y m d : Nat) : Bool :=
  let r := jsDateComponents (y : Int) ((m : Int) - 1) (d : Int)
  (r.1 == (y : Int)) && (((r.2.1 : Nat) : Int) == (m : Int) - 1) && (r.2.2 == (d : Int))

/-! ### The date-normalization step of `EventSchema.pre("save")` -/

/-- The regex `^\d{4}-\d{2}-\d{2}$`. -/
def datePattern (s : String) : Bool :=
  match s.data with
  | [y1, y2, y3, y4, s1, m1, m2, s2, d1, d2] =>
    isDig y1 && isDig y2 && isDig y3 && isDig y4 && (s1 == '-') &&
      isDig m1 && isDig m2 && (s2 == '-') && isDig d1 && isDig d2
  | _ => false

/-- `parseInt` of the three `split("-")` components of a pattern-matching
string (defaults to 0 on shapes the pattern rejects). -/
def dateParts (s : String) : Nat × Nat × Nat :=
  match s.data with
  | [y1, y2, y3, y4, _, m1, m2, _, d1, d2] =>
    (((dval y1 * 10 + dval y2) * 10 + dval y3) * 10 + dval y4,
      dval m1 * 10 + dval m2, dval d1 * 10 + dval d2)
  | _ => (0, 0, 0)

/-- The recomposed stored value: the template
`${year}-${mm}-${dd}` with `mm`/`dd` zero-padded to width 2 and the year
rendered by `String(year)` (no padding). -/
def canonicalDate (y m d : Nat) : String :=
  ⟨(natToString y).data ++ '-' :: (pad2L m).data ++ '-' :: (pad2L d).data⟩

/-- Error message thrown on a pattern mismatch. -/
def datePatternMsg : String :=
  "Date must be in the format YYYY-MM-DD; parsing uses the local calendar date."

/-- Error message thrown on an invalid calendar date. -/
def dateInvalidMsg : String := "Date is not a valid calendar date."

/-- The date-normalization step of the Event pre-save hook
(src/database/event.model.ts, lines 146–175), run when `date` is modified:
pattern test, integer parse, local-`Date` round-trip check, recompose. -/
def normalizeDate (raw : String) : Except String String :=
  if datePattern raw then
    let p := dateParts raw
    if jsDateCheck p.1 p.2.1 p.2.2 then .ok (canonicalDate p.1 p.2.1 p.2.2)
    else .error dateInvalidMsg
  else .error datePatternMsg

/-- `true` iff the computation succeeded. -/
def isOkE {α : Type} (e : Except String α) : Bool :=
  match e with
  | .ok _ => true
  | .error _ => false

instance {ε α : Type} [DecidableEq ε] [DecidableEq α] : DecidableEq (Except ε α) := fun
  | .ok a, .ok b => decidable_of_iff (a = b) (by simp)
  | .ok _, .error _ => isFalse (by simp)
  | .error _, .ok _ => isFalse (by simp)
  | .error a, .error b => decidable_of_iff (a = b) (by simp)

/-! ### Properties of the `Date` normalization walk -/

theorem monthLen_bounds (y : Int) (m : Nat) : 28 ≤ monthLen y m ∧ monthLen y m ≤ 31 := by
  unfold monthLen
  split <;> first | (split <;> omega) | omega

theorem dayNorm_fix (fuel : Nat) (y : Int) (m : Nat) (d : Int) (h1 : 1 ≤ d)
    (h2 : d ≤ monthLen y m) : dayNorm fuel y m d = (y, m, d) := by
  cases fuel with
  | zero => rfl
  | succ f => rw [dayNorm, if_neg (by omega), if_neg (by omega)]

theorem dayNorm_month_le :
    ∀ (fuel : Nat) (y : Int) (m : Nat) (d : Int), m ≤ 11 → (dayNorm fuel y m d).2.1 ≤ 11 := by
  intro fuel
  induction fuel with
  | zero => intro y m d hm; exact hm
  | succ f ih =>
    intro y m d hm
    rw [dayNorm]
    by_cases h1 : d < 1
    · rw [if_pos h1]
      exact ih _ (if m = 0 then 11 else m - 1) _ (by split <;> omega)
    · rw [if_neg h1]
      by_cases hlt : monthLen y m < d
      · rw [if_pos hlt]
        exact ih _ (if m = 11 then 0 else m + 1) _ (by split <;> omega)
      · rw [if_neg hlt]; exact hm

theorem dayNorm_day_le :
    ∀ (fuel : Nat) (y : Int) (m : Nat) (d : Int), 1 ≤ d → (dayNorm fuel y m d).2.2 ≤ d := by
  intro fuel
  induction fuel with
  | zero => intro y m d _; exact le_refl d
  | succ f ih =>
    intro y m d hd
    have hb := monthLen_bounds y m
    rw [dayNorm, if_neg (by omega)]
    by_cases hlt : monthLen y m < d
    · rw [if_pos hlt]
      have h4 := ih (if m = 11 then y + 1 else y) (if m = 11 then 0 else m + 1)
        (d - monthLen y m) (by omega)
      omega
    · rw [if_neg hlt]

theorem dayNorm_day_pos :
    ∀ (fuel : Nat) (y : Int) (m : Nat) (d : Int), 1 ≤ d → 1 ≤ (dayNorm fuel y m d).2.2 := by
  intro fuel
  induction fuel with
  | zero => intro y m d hd; exact hd
  | succ f ih =>
    intro y m d hd
    have hb := monthLen_bounds y m
    rw [dayNorm, if_neg (by omega)]
    by_cases hlt : monthLen y m < d
    · rw [if_pos hlt]
      exact ih _ _ (d - monthLen y m) (by omega)
    · rw [if_neg hlt]
      exact hd

theorem dayNorm_year_ge :
    ∀ (fuel : Nat) (y : Int) (m : Nat) (d : Int), 1 ≤ d → y ≤ (dayNorm fuel y m d).1 := by
  intro fuel
  induction fuel with
  | zero => intro y m d _; exact le_refl y
  | succ f ih =>
    intro y m d hd
    have hb := monthLen_bounds y m
    rw [dayNorm, if_neg (by omega)]
    by_cases hlt : monthLen y m < d
    · rw [if_pos hlt]
      have h4 := ih (if m = 11 then y + 1 else y) (if m = 11 then 0 else m + 1)
        (d - monthLen y m) (by omega)
      have hy : y ≤ (if m = 11 then y + 1 else y) := by split <;> omega
      omega
    · rw [if_neg hlt]

theorem dayNorm_year_ge0 (fuel : Nat) (y : Int) (m : Nat) (d : Int) (hd : 0 ≤ d) :
    y - 1 ≤ (dayNorm fuel y m d).1 := by
  by_cases h1 : 1 ≤ d
  · have := dayNorm_year_ge fuel y m d h1
    omega
  · cases fuel with
    | zero => show y - 1 ≤ y; omega
    | succ f =>
      rw [dayNorm, if_pos (by omega)]
      have hb2 := monthLen_bounds (if m = 0 then y - 1 else y) (if m = 0 then 11 else m - 1)
      have h4 := dayNorm_year_ge f (if m = 0 then y - 1 else y) (if m = 0 then 11 else m - 1)
        (d + monthLen (if m = 0 then y - 1 else y) (if m = 0 then 11 else m - 1)) (by omega)
      have hy : y - 1 ≤ (if m = 0 then y - 1 else y) := by split <;> omega
      omega

theorem fdiv_twelve {a : Int} (h1 : 0 ≤ a) (h2 : a < 12) : Int.fdiv a 12 = 0 := by
  interval_cases a <;> rfl

theorem emod_twelve {a : Int} (h1 : 0 ≤ a) (h2 : a < 12) : Int.emod a 12 = a := by
  interval_cases a <;> rfl

/-- The claim's notion of a valid local calendar date for parsed components
`(y, m, d)` (month 1..12, day within the month's length). -/
def validYMD (y m d : Nat) : Prop :=
  1 ≤ m ∧ m ≤ 12 ∧ 1 ≤ d ∧ (d : Int) ≤ monthLen (y : Int) (m - 1)

instance (y m d : Nat) : Decidable (validYMD y m d) := by
  unfold validYMD; infer_instance

/-- The round-trip test of the date hook passes exactly on valid calendar
dates whose 4-digit year is at least 100: years 0–99 are remapped to
1900–1999 by the `Date` constructor and therefore never equal the parsed
year. -/
theorem jsDateCheck_iff {y m d : Nat} (hy : y ≤ 9999) (hm : m ≤ 99) (hd : d ≤ 99) :
    jsDateCheck y m d = true ↔ (100 ≤ y ∧ validYMD y m d) := by
  simp only [jsDateCheck, jsDateComponents, Bool.and_eq_true, beq_iff_eq]
  constructor
  · rintro ⟨⟨hyr, hmo⟩, hda⟩
    set m0 : Int := (m : Int) - 1 with hm0def
    have hemod0 : 0 ≤ Int.emod m0 12 := Int.emod_nonneg m0 (by decide)
    have hemod12 : Int.emod m0 12 < 12 := Int.emod_lt_of_pos m0 (by decide)
    have hmn11 : (Int.emod m0 12).toNat ≤ 11 := by omega
    have hmono := dayNorm_month_le 50 (jsMapYear (y : Int) + Int.fdiv m0 12)
      (Int.emod m0 12).toNat (d : Int) hmn11
    have hm112 : 1 ≤ m ∧ m ≤ 12 := by omega
    have hm0a : 0 ≤ m0 := by omega
    have hm0b : m0 < 12 := by omega
    rw [emod_twelve hm0a hm0b] at hyr hmo hda
    rw [fdiv_twelve hm0a hm0b, add_zero] at hyr hmo hda
    have hmt : m0.toNat = m - 1 := by omega
    rw [hmt] at hyr hmo hda
    have hy100 : 100 ≤ y := by
      by_contra hlt
      have hmap : jsMapYear (y : Int) = (y : Int) + 1900 := by
        unfold jsMapYear; rw [if_pos (by omega)]
      rw [hmap] at hyr
      have := dayNorm_year_ge0 50 ((y : Int) + 1900) (m - 1) (d : Int) (by omega)
      omega
    have hmap : jsMapYear (y : Int) = (y : Int) := by
      unfold jsMapYear; rw [if_neg (by omega)]
    rw [hmap] at hyr hmo hda
    have hd1 : 1 ≤ (d : Int) := by
      by_contra hd0
      rw [show (50 : Nat) = 49 + 1 from rfl, dayNorm, if_pos (by omega)] at hda
      have hb2 := monthLen_bounds (if m - 1 = 0 then (y : Int) - 1 else (y : Int))
        (if m - 1 = 0 then 11 else m - 1 - 1)
      have hpos := dayNorm_day_pos 49 (if m - 1 = 0 then (y : Int) - 1 else (y : Int))
        (if m - 1 = 0 then 11 else m - 1 - 1)
        ((d : Int) + monthLen (if m - 1 = 0 then (y : Int) - 1 else (y : Int))
          (if m - 1 = 0 then 11 else m - 1 - 1)) (by omega)
      omega
    have hdle : (d : Int) ≤ monthLen (y : Int) (m - 1) := by
      by_contra hgt
      rw [show (50 : Nat) = 49 + 1 from rfl, dayNorm, if_neg (by omega),
        if_pos (by omega)] at hda
      have hb2 := monthLen_bounds (y : Int) (m - 1)
      have hle := dayNorm_day_le 49 (if m - 1 = 11 then (y : Int) + 1 else (y : Int))
        (if m - 1 = 11 then 0 else m - 1 + 1) ((d : Int) - monthLen (y : Int) (m - 1))
        (by omega)
      omega
    exact ⟨hy100, hm112.1, hm112.2, by omega, hdle⟩
  · rintro ⟨hy100, hm1, hm12, hd1, hdle⟩
    have hmap : jsMapYear (y : Int) = (y : Int) := by
      unfold jsMapYear; rw [if_neg (by omega)]
    have hm0a : (0 : Int) ≤ (m : Int) - 1 := by omega
    have hm0b : (m : Int) - 1 < 12 := by omega
    rw [hmap, emod_twelve hm0a hm0b, fdiv_twelve hm0a hm0b, add_zero]
    have hmt : ((m : Int) - 1).toNat = m - 1 := by omega
    rw [hmt]
    rw [dayNorm_fix 50 (y : Int) (m - 1) (d : Int) (by omega) hdle]
    refine ⟨⟨rfl, ?_⟩, rfl⟩
    show ((m - 1 : Nat) : Int) = (m : Int) - 1
    omega

theorem datePattern_elim {s : String} (h : datePattern s = true) :
    ∃ y1 y2 y3 y4 m1 m2 d1 d2 : Char,
      s.data = [y1, y2, y3, y4, '-', m1, m2, '-', d1, d2] ∧
        isDig y1 = true ∧ isDig y2 = true ∧ isDig y3 = true ∧ isDig y4 = true ∧
        isDig m1 = true ∧ isDig m2 = true ∧ isDig d1 = true ∧ isDig d2 = true := by
  unfold datePattern at h
  rcases hsd : s.data with _ | ⟨y1, _ | ⟨y2, _ | ⟨y3, _ | ⟨y4, _ | ⟨s1, _ | ⟨m1, _ | ⟨m2,
    _ | ⟨s2, _ | ⟨d1, _ | ⟨d2, _ | ⟨x, rest⟩⟩⟩⟩⟩⟩⟩⟩⟩⟩⟩ <;> rw [hsd] at h <;>
    simp only [Bool.and_eq_true, beq_iff_eq] at h <;> try exact absurd h (by decide)
  obtain ⟨⟨⟨⟨⟨⟨⟨⟨⟨h1, h2⟩, h3⟩, h4⟩, hs1⟩, h5⟩, h6⟩, hs2⟩, h7⟩, h8⟩ := h
  subst hs1; subst hs2
  exact ⟨y1, y2, y3, y4, m1, m2, d1, d2, rfl, h1, h2, h3, h4, h5, h6, h7, h8⟩

theorem dateParts_bounds {s : String} (h : datePattern s = true) :
    (dateParts s).1 ≤ 9999 ∧ (dateParts s).2.1 ≤ 99 ∧ (dateParts s).2.2 ≤ 99 := by
  obtain ⟨y1, y2, y3, y4, m1, m2, d1, d2, hsd, h1, h2, h3, h4, h5, h6, h7, h8⟩ :=
    datePattern_elim h
  have hdp : dateParts s = (((dval y1 * 10 + dval y2) * 10 + dval y3) * 10 + dval y4,
      dval m1 * 10 + dval m2, dval d1 * 10 + dval d2) := by
    unfold dateParts; rw [hsd]
  rw [hdp]
  rw [isDig_iff] at h1 h2 h3 h4 h5 h6 h7 h8
  simp only [dval]
  omega

/-- C3 (amended): the date-normalization step succeeds iff the input matches
`\d{4}-\d{2}-\d{2}` exactly, its components form a valid local calendar date
AND the parsed year is at least 100 (the platform `Date` constructor remaps
years 0–99 to 1900–1999, so such inputs always fail the round-trip check);
on success the stored value is `year-MM-DD` with month and day zero-padded
but the year rendered without leading zeros. -/
theorem claim3_amended (s : String) :
    (isOkE (normalizeDate s) = true ↔
      datePattern s = true ∧ 100 ≤ (dateParts s).1 ∧
        validYMD (dateParts s).1 (dateParts s).2.1 (dateParts s).2.2) ∧
    (∀ t, normalizeDate s = .ok t →
      t = canonicalDate (dateParts s).1 (dateParts s).2.1 (dateParts s).2.2) := by
  by_cases hp : datePattern s = true
  · obtain ⟨hy, hm, hd⟩ := dateParts_bounds hp
    rw [normalizeDate, if_pos hp]
    simp only []
    by_cases hc : jsDateCheck (dateParts s).1 (dateParts s).2.1 (dateParts s).2.2 = true
    · rw [if_pos hc]
      rw [jsDateCheck_iff hy hm hd] at hc
      refine ⟨?_, ?_⟩
      · simp only [isOkE, true_iff]
        exact ⟨hp, hc.1, hc.2⟩
      · intro t ht
        injection ht with ht
        exact ht.symm
    · rw [if_neg hc]
      rw [jsDateCheck_iff hy hm hd] at hc
      refine ⟨?_, ?_⟩
      · simp only [isOkE, Bool.false_eq_true, false_iff]
        rintro ⟨_, hy100, hv⟩
        exact hc ⟨hy100, hv⟩
      · intro t ht
        exact absurd ht (by simp)
  · rw [normalizeDate, if_neg hp]
    refine ⟨?_, ?_⟩
    · simp only [isOkE, Bool.false_eq_true, false_iff]
      rintro ⟨hps, _⟩
      exact hp hps
    · intro t ht
      exact absurd ht (by simp)

/-- C3 witness: a concrete in-range date is accepted and stored canonically. -/
theorem claim3_witness :
    "2025-02-28" = canonicalDate (dateParts "2025-02-28").1 (dateParts "2025-02-28").2.1
      (dateParts "2025-02-28").2.2 :=
  (claim3_amended "2025-02-28").2 "2025-02-28" (by decide)

/-- C3 counterexample: "0099-01-01" matches the pattern and is a valid local
calendar date, yet the hook rejects it; and the valid input "0150-01-01" is
stored as "150-01-01", not as the zero-padded canonical form. -/
theorem claim3_counterexample :
    (datePattern "0099-01-01" = true ∧ validYMD 99 1 1 ∧ dateParts "0099-01-01" = (99, 1, 1) ∧
      isOkE (normalizeDate "0099-01-01") = false) ∧
    (normalizeDate "0150-01-01" = .ok "150-01-01" ∧ "150-01-01" ≠ "0150-01-01") := by
  decide

theorem pad2L_data {m : Nat} (hm : m ≤ 99) :
    (pad2L m).data = [digitChar (m / 10), digitChar (m % 10)] := by
  unfold pad2L
  by_cases h10 : m < 10
  · rw [if_pos h10]
    have h1 : m / 10 = 0 := by omega
    have h2 : m % 10 = m := by omega
    rw [h1, h2]
    rfl
  · rw [if_neg h10]
    show natDigitsL m = _
    exact natDigitsL_two (by omega) hm

theorem canonicalDate_data {y m d : Nat} (hy1 : 1000 ≤ y) (hy2 : y ≤ 9999) (hm : m ≤ 99)
    (hd : d ≤ 99) :
    (canonicalDate y m d).data =
      [digitChar (y / 1000), digitChar (y / 100 % 10), digitChar (y / 10 % 10),
        digitChar (y % 10), '-', digitChar (m / 10), digitChar (m % 10), '-',
        digitChar (d / 10), digitChar (d % 10)] := by
  show (natToString y).data ++ '-' :: (pad2L m).data ++ '-' :: (pad2L d).data = _
  rw [pad2L_data hm, pad2L_data hd]
  have hnat : (natToString y).data = natDigitsL y := rfl
  rw [hnat, natDigitsL_four hy1 hy2]
  simp

theorem canonicalDate_pattern {y m d : Nat} (hy1 : 1000 ≤ y) (hy2 : y ≤ 9999) (hm : m ≤ 99)
    (hd : d ≤ 99) : datePattern (canonicalDate y m d) = true := by
  simp only [datePattern, canonicalDate_data hy1 hy2 hm hd]
  rw [isDig_digitChar (show y / 1000 < 10 by omega),
    isDig_digitChar (show y / 100 % 10 < 10 by omega),
    isDig_digitChar (show y / 10 % 10 < 10 by omega),
    isDig_digitChar (show y % 10 < 10 by omega),
    isDig_digitChar (show m / 10 < 10 by omega),
    isDig_digitChar (show m % 10 < 10 by omega),
    isDig_digitChar (show d / 10 < 10 by omega),
    isDig_digitChar (show d % 10 < 10 by omega)]
  decide

theorem canonicalDate_parts {y m d : Nat} (hy1 : 1000 ≤ y) (hy2 : y ≤ 9999) (hm : m ≤ 99)
    (hd : d ≤ 99) : dateParts (canonicalDate y m d) = (y, m, d) := by
  simp only [dateParts, canonicalDate_data hy1 hy2 hm hd]
  rw [dval_digitChar (show y / 1000 < 10 by omega),
    dval_digitChar (show y / 100 % 10 < 10 by omega),
    dval_digitChar (show y / 10 % 10 < 10 by omega),
    dval_digitChar (show y % 10 < 10 by omega),
    dval_digitChar (show m / 10 < 10 by omega),
    dval_digitChar (show m % 10 < 10 by omega),
    dval_digitChar (show d / 10 < 10 by omega),
    dval_digitChar (show d % 10 < 10 by omega)]
  simp only [Prod.mk.injEq]
  refine ⟨by omega, by omega, by omega⟩

/-- C8 (amended): the date-normalization step is idempotent on canonical
`YYYY-MM-DD` strings representing valid calendar dates whose year is at
least 1000 — the year is re-rendered without leading zeros, so only then
does the recomposed output equal the input. -/
theorem claim8_amended {y m d : Nat} (hy1 : 1000 ≤ y) (hy2 : y ≤ 9999)
    (hvalid : validYMD y m d) :
    normalizeDate (canonicalDate y m d) = .ok (canonicalDate y m d) := by
  obtain ⟨hm1, hm12, hd1, hdle⟩ := hvalid
  have hb := monthLen_bounds (y : Int) (m - 1)
  have hm99 : m ≤ 99 := by omega
  have hd99 : d ≤ 99 := by omega
  have hchk : jsDateCheck y m d = true := by
    rw [jsDateCheck_iff (by omega) hm99 hd99]
    exact ⟨by omega, hm1, hm12, hd1, hdle⟩
  rw [normalizeDate, if_pos (canonicalDate_pattern hy1 hy2 hm99 hd99)]
  simp only [canonicalDate_parts hy1 hy2 hm99 hd99, hchk, if_true]

/-- C8 witness: idempotence at the concrete canonical date 2025-02-28. -/
theorem claim8_witness :
    normalizeDate (canonicalDate 2025 2 28) = .ok (canonicalDate 2025 2 28) :=
  claim8_amended (by decide) (by decide) (by decide)

/-- C8 counterexample: the already-canonical valid date string "0150-01-01"
is not a fixed point of normalization — it is rewritten to "150-01-01",
and that output (a string the normalization step itself produced) is then
rejected outright by the pattern check. -/
theorem claim8_counterexample :
    normalizeDate "0150-01-01" = .ok "150-01-01" ∧ datePattern "0150-01-01" = true ∧
      validYMD 150 1 1 ∧ "150-01-01" ≠ "0150-01-01" ∧
      isOkE (normalizeDate "150-01-01") = false := by
  decide

/-! ### The time-normalization step of `EventSchema.pre("save")` -/

/-- Error message of the time format check. -/
def timeFmtMsg : String := "Time must be in HH:MM format (e.g., 14:30 or 09:00)"

/-- The regex `^([0-1]?[0-9]|2[0-3]):[0-5][0-9]$`: either `H:MM` (single
hour digit) or `HH:MM`.  Character classes are code-point ranges
(`'0'` = 48, `'1'` = 49, `'2'` = 50, `'3'` = 51, `'5'` = 53, `'9'` = 57). -/
def timePattern (s : String) : Bool :=
  match s.data with
  | [a, c, b1, b2] =>
    isDig a && (c == ':') && (decide (48 ≤ b1.toNat) && decide (b1.toNat ≤ 53)) && isDig b2
  | [a1, a2, c, b1, b2] =>
    ((decide (48 ≤ a1.toNat) && decide (a1.toNat ≤ 49) && isDig a2) ||
      (decide (a1.toNat = 50) && decide (48 ≤ a2.toNat) && decide (a2.toNat ≤ 51))) &&
      (c == ':') && (decide (48 ≤ b1.toNat) && decide (b1.toNat ≤ 53)) && isDig b2
  | _ => false

/-- The time-normalization step of the Event pre-save hook
(src/database/event.model.ts, lines 177–187), run when `time` is modified:
regex test, then split on ":" and zero-pad the hour part with
`padStart(2, "0")` (the minute part is already two characters). -/
def normalizeTime (s : String) : Except String String :=
  if timePattern s then
    .ok (match s.data with
      | [a, _, b1, b2] => ⟨['0', a, ':', b1, b2]⟩
      | l => ⟨l⟩)
  else .error timeFmtMsg

/-- The claim's format condition, transcribed: the string is `H:MM` or
`HH:MM` made of digits with the hour value in 0–23 and the minute value in
00–59. -/
def specTime (s : String) : Bool :=
  match s.data with
  | [a, c, b1, b2] =>
    isDig a && (c == ':') && isDig b1 && isDig b2 &&
      decide (dval a ≤ 23) && decide (10 * dval b1 + dval b2 ≤ 59)
  | [a1, a2, c, b1, b2] =>
    isDig a1 && isDig a2 && (c == ':') && isDig b1 && isDig b2 &&
      decide (10 * dval a1 + dval a2 ≤ 23) && decide (10 * dval b1 + dval b2 ≤ 59)
  | _ => false

theorem timePattern_eq_specTime (s : String) : timePattern s = specTime s := by
  rcases hsd : s.data with _ | ⟨a1, _ | ⟨a2, _ | ⟨a3, _ | ⟨a4, _ | ⟨a5, _ | ⟨a6, rest⟩⟩⟩⟩⟩⟩ <;>
    simp only [timePattern, specTime, hsd]
  · rw [Bool.eq_iff_iff]
    simp only [Bool.and_eq_true, decide_eq_true_eq, beq_iff_eq, isDig_iff, dval]
    by_cases hc : a2 = ':'
    · subst hc
      simp only [eq_self_iff_true, true_and, and_true]
      constructor <;> intro h <;> omega
    · simp [hc]
  · rw [Bool.eq_iff_iff]
    simp only [Bool.and_eq_true, Bool.or_eq_true, decide_eq_true_eq, beq_iff_eq, isDig_iff, dval]
    by_cases hc : a3 = ':'
    · subst hc
      simp only [eq_self_iff_true, true_and, and_true]
      constructor <;> intro h <;> omega
    · simp [hc]

/-- C5: the time-normalization step succeeds exactly on `H:MM` / `HH:MM`
strings whose hour is 0–23 and minute 00–59, and on success the stored
value is the zero-padded `HH:MM` form (a `'0'` is prepended to single-digit
hours, two-digit inputs are kept verbatim); "9:5" and "24:00" fail, and
"09:05" is stored unchanged. -/
theorem claim5_time (s : String) :
    (isOkE (normalizeTime s) = specTime s) ∧
    (∀ t, normalizeTime s = .ok t →
      t.data = (if s.data.length = 4 then '0' :: s.data else s.data) ∧ specTime t = true) ∧
    normalizeTime "9:5" = .error timeFmtMsg ∧
    normalizeTime "24:00" = .error timeFmtMsg ∧
    normalizeTime "09:05" = .ok "09:05" := by
  refine ⟨?_, ?_, by decide, by decide, by decide⟩
  · rw [← timePattern_eq_specTime, normalizeTime]
    cases htp : timePattern s <;> rfl
  · intro t ht
    rw [normalizeTime] at ht
    by_cases hp : timePattern s = true
    · rw [if_pos hp] at ht
      injection ht with ht
      rcases hsd : s.data with _ | ⟨a1, _ | ⟨a2, _ | ⟨a3, _ | ⟨a4, _ | ⟨a5, _ | ⟨a6, rest⟩⟩⟩⟩⟩⟩ <;>
        simp only [timePattern, hsd, Bool.and_eq_true, Bool.or_eq_true, decide_eq_true_eq,
          beq_iff_eq, isDig_iff, Bool.false_eq_true] at hp
      · -- H:MM shape
        obtain ⟨⟨⟨ha1, hc⟩, hm1⟩, hm2⟩ := hp
        subst hc
        rw [hsd] at ht
        subst ht
        refine ⟨by simp, ?_⟩
        simp only [specTime, Bool.and_eq_true, decide_eq_true_eq, beq_iff_eq, isDig_iff, dval,
          show Char.toNat '0' = 48 from rfl, eq_self_iff_true, true_and, and_true]
        omega
      · -- HH:MM shape
        obtain ⟨⟨⟨hh, hc⟩, hm1⟩, hm2⟩ := hp
        subst hc
        rw [hsd] at ht
        subst ht
        refine ⟨by simp, ?_⟩
        simp only [specTime, Bool.and_eq_true, decide_eq_true_eq, beq_iff_eq, isDig_iff, dval,
          eq_self_iff_true, true_and, and_true]
        omega
    · rw [if_neg hp] at ht
      exact absurd ht (by simp)

/-- C5 witness: the "9:30" input is accepted and stored as "09:30". -/
theorem claim5_witness :
    ("09:30" : String).data =
      (if ("9:30" : String).data.length = 4 then '0' :: ("9:30" : String).data
        else ("9:30" : String).data) ∧
      specTime "09:30" = true :=
  (claim5_time "9:30").2.1 "09:30" (by decide)

/-! ### Slug generation of `EventSchema.pre("save")` -/

/-- The regex class `\s` / `trim()` whitespace, on the ASCII range
(space, tab, newline, carriage return, vertical tab, form feed). -/
def isWs (c : Char) : Bool :=
  decide (c.toNat = 32) || decide (c.toNat = 9) || decide (c.toNat = 10) ||
    decide (c.toNat = 13) || decide (c.toNat = 11) || decide (c.toNat = 12)

/-- The regex class `\w` = `[A-Za-z0-9_]`. -/
def isWordChar (c : Char) : Bool :=
  (decide (65 ≤ c.toNat) && decide (c.toNat ≤ 90)) ||
    (decide (97 ≤ c.toNat) && decide (c.toNat ≤ 122)) ||
    (decide (48 ≤ c.toNat) && decide (c.toNat ≤ 57)) || decide (c.toNat = 95)

/-- `toLowerCase()` on the ASCII range. -/
def lowerChar (c : Char) : Char :=
  if 65 ≤ c.toNat ∧ c.toNat ≤ 90 then Char.ofNat (c.toNat + 32) else c

/-- `.replace(/\s+/g, "-")`: each maximal whitespace run becomes one hyphen;
the flag records whether the previous character belonged to a run. -/
def collapseWs : Bool → List Char → List Char
  | _, [] => []
  | prev, c :: rest =>
    if isWs c then (if prev then collapseWs true rest else '-' :: collapseWs true rest)
    else c :: collapseWs false rest

/-- The last `replace` of the slug pipeline: each hyphen run becomes one
hyphen (global regex: one or more hyphens). -/
def collapseHy : Bool → List Char → List Char
  | _, [] => []
  | prev, c :: rest =>
    if c == '-' then (if prev then collapseHy true rest else '-' :: collapseHy true rest)
    else c :: collapseHy false rest

/-- `trim()`: strip whitespace from both ends. -/
def trimChars (l : List Char) : List Char :=
  ((l.dropWhile (fun c => isWs c)).reverse.dropWhile (fun c => isWs c)).reverse

/-- The base slug of the pre-save hook: lower-case the title, trim it,
strip every character outside `\w`, `\s` and hyphen, replace whitespace
runs by single hyphens, collapse hyphen runs. -/
def slugify (title : String) : String :=
  ⟨collapseHy false (collapseWs false
    ((trimChars (title.data.map lowerChar)).filter
      (fun c => isWordChar c || isWs c || c == '-')))⟩

/-- The candidate tried at counter `k`: the base slug for `k = 0`, then
`base-1`, `base-2`, …. -/
def slugCand (base : String) (k : Nat) : String :=
  if k = 0 then base else ⟨base.data ++ '-' :: natDigitsL k⟩

/-- `findOne({ slug, _id: { $ne: this._id } })` finds a document: some other
Event (a different id) currently holds this slug.  The store is the list of
`(id, slug)` pairs of all persisted Events. -/
def slugTaken (store : List (Nat × String)) (selfId : Nat) (s : String) : Bool :=
  store.any (fun e => e.2 == s && e.1 != selfId)

/-- The `while (true)` candidate loop of the pre-save hook: try `base`,
`base-1`, `base-2`, … and keep the first free candidate.  The source loop is
unbounded; fuel for `store.length + 2` candidates provably always
suffices (`genSlug_total`). -/
def genSlugAux (store : List (Nat × String)) (selfId : Nat) (base : String) :
    Nat → Nat → Option String
  | 0, _ => none
  | fuel + 1, k =>
    if slugTaken store selfId (slugCand base k) then genSlugAux store selfId base fuel (k + 1)
    else some (slugCand base k)

/-- The slug selected by the pre-save hook for a document `selfId` with base
slug `base`, given the persisted Events `store`. -/
def genSlug (store : List (Nat × String)) (selfId : Nat) (base : String) : Option String :=
  genSlugAux store selfId base (store.length + 2) 0

example : slugify "My Test Event!!" = "my-test-event" := by decide
example : slugify "  Hello --  World_1!?" = "hello-world_1" := by decide

theorem slugCand_injective (base : String) : ∀ {i j : Nat},
    slugCand base i = slugCand base j → i = j := by
  intro i j h
  unfold slugCand at h
  by_cases hi : i = 0 <;> by_cases hj : j = 0
  · omega
  · rw [if_pos hi, if_neg hj] at h
    have hd := congrArg String.data h
    have hl := congrArg List.length hd
    simp [List.length_append] at hl
  · rw [if_neg hi, if_pos hj] at h
    have hd := congrArg String.data h
    have hl := congrArg List.length hd
    simp [List.length_append] at hl
  · rw [if_neg hi, if_neg hj] at h
    have hd : base.data ++ '-' :: natDigitsL i = base.data ++ '-' :: natDigitsL j :=
      congrArg String.data h
    have h2 := List.append_cancel_left hd
    injection h2 with _ h3
    exact natDigitsL_injective h3

theorem genSlugAux_some (store : List (Nat × String)) (selfId : Nat) (base : String) :
    ∀ fuel k s, genSlugAux store selfId base fuel k = some s →
      ∃ i, i < fuel ∧ s = slugCand base (k + i) ∧
        slugTaken store selfId (slugCand base (k + i)) = false ∧
        ∀ j, k ≤ j → j < k + i → slugTaken store selfId (slugCand base j) = true := by
  intro fuel
  induction fuel with
  | zero => intro k s h; exact absurd h (by simp [genSlugAux])
  | succ f ih =>
    intro k s h
    rw [genSlugAux] at h
    cases htb : slugTaken store selfId (slugCand base k) with
    | false =>
      rw [htb, if_neg (by simp)] at h
      injection h with h
      exact ⟨0, by omega, by rw [Nat.add_zero]; exact h.symm, by rw [Nat.add_zero]; exact htb,
        fun j hj1 hj2 => by omega⟩
    | true =>
      rw [htb, if_pos rfl] at h
      obtain ⟨i, hif, hs, hfree, hall⟩ := ih (k + 1) s h
      refine ⟨i + 1, by omega, ?_, ?_, ?_⟩
      · rw [show k + (i + 1) = k + 1 + i by omega]; exact hs
      · rw [show k + (i + 1) = k + 1 + i by omega]; exact hfree
      · intro j hj1 hj2
        by_cases hjk : j = k
        · subst hjk; exact htb
        · exact hall j (by omega) (by omega)

theorem genSlugAux_none (store : List (Nat × String)) (selfId : Nat) (base : String) :
    ∀ fuel k, genSlugAux store selfId base fuel k = none →
      ∀ j, k ≤ j → j < k + fuel → slugTaken store selfId (slugCand base j) = true := by
  intro fuel
  induction fuel with
  | zero => intro k _ j h1 h2; omega
  | succ f ih =>
    intro k h j h1 h2
    rw [genSlugAux] at h
    cases htb : slugTaken store selfId (slugCand base k) with
    | false => rw [htb, if_neg (by simp)] at h; exact absurd h (by simp)
    | true =>
      rw [htb, if_pos rfl] at h
      by_cases hjk : j = k
      · subst hjk; exact htb
      · exact ih (k + 1) h j (by omega) (by omega)

/-- The candidate loop always finds a free slug within its fuel: the
`store.length + 2` candidates are pairwise-distinct strings and at most
`store.length` of them can be held by other documents. -/
theorem genSlug_total (store : List (Nat × String)) (selfId : Nat) (base : String) :
    genSlug store selfId base ≠ none := by
  intro hnone
  have hall := genSlugAux_none store selfId base (store.length + 2) 0 hnone
  have hmem : ∀ j, j < store.length + 2 → slugCand base j ∈ store.map Prod.snd := by
    intro j hj
    have htj := hall j (by omega) (by omega)
    rw [slugTaken, List.any_eq_true] at htj
    obtain ⟨e, he, hcond⟩ := htj
    rw [Bool.and_eq_true, beq_iff_eq] at hcond
    exact List.mem_map.mpr ⟨e, he, hcond.1⟩
  classical
  have hinj : Function.Injective (fun i : Fin (store.length + 2) => slugCand base i.1) := by
    intro i j hij
    exact Fin.ext (slugCand_injective base hij)
  have hsub : Finset.univ.image (fun i : Fin (store.length + 2) => slugCand base i.1) ⊆
      (store.map Prod.snd).toFinset := by
    intro x hx
    rw [Finset.mem_image] at hx
    obtain ⟨i, _, rfl⟩ := hx
    rw [List.mem_toFinset]
    exact hmem i.1 i.2
  have hcard1 : (Finset.univ.image
      (fun i : Fin (store.length + 2) => slugCand base i.1)).card = store.length + 2 := by
    rw [Finset.card_image_of_injective _ hinj, Finset.card_univ, Fintype.card_fin]
  have hcard2 := Finset.card_le_card hsub
  have hcard3 := (store.map Prod.snd).toFinset_card_le
  rw [hcard1] at hcard2
  rw [List.length_map] at hcard3
  omega

/-! ### The full Event pre-save hook -/

structure EventDoc where
  id : Nat
  title : String
  slug : String
  date : String
  time : String
deriving DecidableEq

structure Modified where
  title : Bool
  date : Bool
  time : Bool
deriving DecidableEq

/-- The `isModified("title")` block of the pre-save hook: regenerate the
slug from the title.  The `none` branch of the candidate loop is
unreachable (`genSlug_total`); the source's `while (true)` loop simply
keeps going. -/
def slugStep (store : List (Nat × String)) (doc : EventDoc) (b : Bool) :
    Except String EventDoc :=
  if b then
    match genSlug store doc.id (slugify doc.title) with
    | some s => Except.ok { doc with slug := s }
    | none => Except.error "slug candidate fuel exhausted"
  else Except.ok doc

/-- The `isModified("date")` block of the pre-save hook. -/
def dateStep (doc : EventDoc) (b : Bool) : Except String EventDoc :=
  if b then
    match normalizeDate doc.date with
    | Except.error e => Except.error e
    | Except.ok nd => Except.ok { doc with date := nd }
  else Except.ok doc

/-- The `isModified("time")` block of the pre-save hook. -/
def timeStep (doc : EventDoc) (b : Bool) : Except String EventDoc :=
  if b then
    match normalizeTime doc.time with
    | Except.error e => Except.error e
    | Except.ok nt => Except.ok { doc with time := nt }
  else Except.ok doc

/-- The Event pre-save hook (src/database/event.model.ts, lines 115–188):
slug generation when the title is modified, then date normalization, then
time normalization; a throw in any block aborts the save. -/
def eventPreSave (store : List (Nat × String)) (doc : EventDoc) (md : Modified) :
    Except String EventDoc :=
  match slugStep store doc md.title with
  | Except.error e => Except.error e
  | Except.ok d1 =>
    match dateStep d1 md.date with
    | Except.error e => Except.error e
    | Except.ok d2 => timeStep d2 md.time

theorem dateStep_slug {doc r : EventDoc} {b : Bool} (h : dateStep doc b = Except.ok r) :
    r.slug = doc.slug := by
  rw [dateStep] at h
  split at h
  · split at h
    · exact absurd h (by simp)
    · injection h with h; subst h; rfl
  · injection h with h; subst h; rfl

theorem timeStep_slug {doc r : EventDoc} {b : Bool} (h : timeStep doc b = Except.ok r) :
    r.slug = doc.slug := by
  rw [timeStep] at h
  split at h
  · split at h
    · exact absurd h (by simp)
    · injection h with h; subst h; rfl
  · injection h with h; subst h; rfl

/-- C4: the stored slug is the first candidate among `base`, `base-1`,
`base-2`, … not currently held by another Event; concretely,
"My Test Event!!" produces slug "my-test-event", and a second Event with
the identical title gets "my-test-event-1". -/
theorem claim4_slug (store : List (Nat × String)) (selfId : Nat) (base : String) :
    (∃ k, genSlug store selfId base = some (slugCand base k) ∧
      slugTaken store selfId (slugCand base k) = false ∧
      ∀ j, j < k → slugTaken store selfId (slugCand base j) = true) ∧
    slugify "My Test Event!!" = "my-test-event" ∧
    eventPreSave [] ⟨1, "My Test Event!!", "", "2025-01-01", "10:00"⟩ ⟨true, false, false⟩ =
      .ok ⟨1, "My Test Event!!", "my-test-event", "2025-01-01", "10:00"⟩ ∧
    eventPreSave [(1, "my-test-event")] ⟨2, "My Test Event!!", "", "2025-01-01", "10:00"⟩
        ⟨true, false, false⟩ =
      .ok ⟨2, "My Test Event!!", "my-test-event-1", "2025-01-01", "10:00"⟩ := by
  refine ⟨?_, by decide, by decide, by decide⟩
  cases hg : genSlug store selfId base with
  | none => exact absurd hg (genSlug_total store selfId base)
  | some s =>
    obtain ⟨i, _, hs, hfree, hall⟩ :=
      genSlugAux_some store selfId base (store.length + 2) 0 s hg
    simp only [Nat.zero_add] at hs hfree hall
    subst hs
    exact ⟨i, rfl, hfree, fun j hj => hall j (Nat.zero_le j) hj⟩

/-- C4 witness: on a store already holding "my-test-event" (for another id),
the loop returns "my-test-event-1". -/
theorem claim4_witness :
    genSlug [(1, "my-test-event")] 2 "my-test-event" = some "my-test-event-1" := by
  obtain ⟨⟨k, hk, hfree, hall⟩, -, -, -⟩ :=
    claim4_slug [(1, "my-test-event")] 2 "my-test-event"
  have hk1 : k = 1 := by
    by_contra hne
    rcases Nat.lt_or_ge k 1 with hlt | hge
    · have h00 : k = 0 := by omega
      rw [h00] at hfree
      exact absurd hfree (by decide)
    · have h2 := hall 1 (by omega)
      exact absurd h2 (by decide)
  rw [hk1] at hk
  rw [hk]
  decide

/-- C7: a save with an unmodified title leaves the slug exactly as it was,
whatever the date/time steps do. -/
theorem claim7_slug_preserved (store : List (Nat × String)) (doc : EventDoc) (md : Modified)
    (hmd : md.title = false) :
    ∀ d, eventPreSave store doc md = .ok d → d.slug = doc.slug := by
  intro d h
  rw [eventPreSave] at h
  have h1 : slugStep store doc md.title = Except.ok doc := by
    rw [slugStep, hmd]; simp
  simp only [h1] at h
  cases hmid : dateStep doc md.date with
  | error e => rw [hmid] at h; exact absurd h (by simp)
  | ok d2 =>
    rw [hmid] at h
    exact (timeStep_slug h).trans (dateStep_slug hmid)

/-- C7 witness: a save that rewrites date and time leaves the slug "keep"
untouched. -/
theorem claim7_witness :
    (⟨1, "T", "keep", "150-02-03", "09:05"⟩ : EventDoc).slug =
      (⟨1, "T", "keep", "0150-02-03", "9:05"⟩ : EventDoc).slug :=
  claim7_slug_preserved [] ⟨1, "T", "keep", "0150-02-03", "9:05"⟩ ⟨false, true, true⟩ rfl
    ⟨1, "T", "keep", "150-02-03", "09:05"⟩ (by decide)

/-! ### Booking hooks (src/database/booking.model.ts) -/

theorem dataAppend (a b : String) : (a ++ b).data = a.data ++ b.data := by
  cases a; cases b; rfl

/-- `Event.findById(id)` finds a document: the id is among the persisted
Events (only existence matters to the hooks). -/
def eventExists (events : List Nat) (e : Nat) : Bool := events.contains e

/-- The message thrown by the Booking pre-save hook. -/
def createErrMsg (e : Nat) : String :=
  "Event with ID " ++ natToString e ++
    " does not exist. Cannot create booking for non-existent event."

/-- The message thrown by the Booking pre-update hooks. -/
def updateErrMsg (e : Nat) : String :=
  "Event with ID " ++ natToString e ++
    " does not exist. Cannot update booking to a non-existent event."

/-- The Booking pre-save hook (src/database/booking.model.ts, lines 46–57):
when `eventId` is modified (always true for new documents), the referenced
Event must exist, otherwise the save throws. -/
def bookingPreSave (events : List Nat) (modEventId : Bool) (eid : Nat) : Except String Unit :=
  if modEventId then
    if eventExists events eid then Except.ok () else Except.error (createErrMsg eid)
  else Except.ok ()

/-- An update payload: `eventId` at the top level, `eventId` nested inside
the `$set` operator, and an `email` change; `none` is an absent (or
nullish) field. -/
structure UpdatePayload where
  eventIdTop : Option Nat
  eventIdSet : Option Nat
  email : Option String
deriving DecidableEq

/-- The query option the hooks manipulate. -/
structure QueryOpts where
  runSettersOnQuery : Bool
deriving DecidableEq

/-- The pre-findOneAndUpdate hook (lines 63–78): force `runSettersOnQuery`,
take the candidate id from the top-level payload with nullish fallback to
the `$set` operator, and require that Event to exist. -/
def preFindOneAndUpdate (events : List Nat) (q : QueryOpts) (u : Option UpdatePayload) :
    Except String QueryOpts :=
  match (match u with
    | none => none
    | some up =>
      match up.eventIdTop with
      | some e => some e
      | none => up.eventIdSet) with
  | some e =>
    if eventExists events e then Except.ok { q with runSettersOnQuery := true }
    else Except.error (updateErrMsg e)
  | none => Except.ok { q with runSettersOnQuery := true }

/-- The pre-updateOne hook (lines 81–92): force `runSettersOnQuery`, then
check only a top-level `eventId` (`update && update.eventId`); an id nested
in `$set` is not inspected. -/
def preUpdateOne (events : List Nat) (q : QueryOpts) (u : Option UpdatePayload) :
    Except String QueryOpts :=
  match u with
  | none => Except.ok { q with runSettersOnQuery := true }
  | some up =>
    match up.eventIdTop with
    | some e =>
      if eventExists events e then Except.ok { q with runSettersOnQuery := true }
      else Except.error (updateErrMsg e)
    | none => Except.ok { q with runSettersOnQuery := true }

/-- The `email` schema setters (`lowercase`, `trim`), as run on document
assignment; the two transformations commute on every input. -/
def emailSetter (v : String) : String := ⟨trimChars (v.data.map lowerChar)⟩

/-- The value a filter-based update stores for `email`: field setters run
only when `runSettersOnQuery` is set on the query. -/
def queryUpdateEmail (q : QueryOpts) (v : String) : String :=
  if q.runSettersOnQuery then emailSetter v else v

/-- The value the document-save path stores for `email` (setters always run
on assignment). -/
def savePathEmail (v : String) : String := emailSetter v

/-- C6: creating a Booking (or saving one with modified eventId) whose
eventId matches no Event throws the reference error whose message carries
the offending id, and the save is aborted; when the Event exists, or the
eventId is unmodified, the save proceeds. -/
theorem claim6_booking_create (events : List Nat) (eid : Nat) :
    (eventExists events eid = false →
      bookingPreSave events true eid = Except.error (createErrMsg eid) ∧
      (createErrMsg eid).data =
        "Event with ID ".data ++ (natToString eid).data ++
          " does not exist. Cannot create booking for non-existent event.".data) ∧
    (eventExists events eid = true → bookingPreSave events true eid = Except.ok ()) ∧
    bookingPreSave events false eid = Except.ok () := by
  refine ⟨?_, ?_, rfl⟩
  · intro h
    refine ⟨by simp [bookingPreSave, h], ?_⟩
    rw [createErrMsg, dataAppend, dataAppend]
  · intro h
    simp [bookingPreSave, h]

/-- C6 witness: booking an event id 7 against an empty Event store fails
with the id-carrying message. -/
theorem claim6_witness :
    bookingPreSave [] true 7 = Except.error (createErrMsg 7) ∧
      (createErrMsg 7).data =
        "Event with ID ".data ++ (natToString 7).data ++
          " does not exist. Cannot create booking for non-existent event.".data :=
  (claim6_booking_create [] 7).1 (by decide)

/-- C1 (amended): the findOneAndUpdate hook extracts the candidate eventId
from the top level or, failing that, from `$set`, and aborts with the
reference error when that Event does not exist; the updateOne hook runs the
same check only for a top-level `eventId` — a payload whose new id sits
solely inside `$set` passes through unchecked. -/
theorem claim1_amended (events : List Nat) (q : QueryOpts) (up : UpdatePayload) (e : Nat) :
    ((up.eventIdTop = some e ∨ (up.eventIdTop = none ∧ up.eventIdSet = some e)) →
      (eventExists events e = false →
        preFindOneAndUpdate events q (some up) = Except.error (updateErrMsg e)) ∧
      (eventExists events e = true →
        preFindOneAndUpdate events q (some up) =
          Except.ok { q with runSettersOnQuery := true })) ∧
    (up.eventIdTop = some e →
      (eventExists events e = false →
        preUpdateOne events q (some up) = Except.error (updateErrMsg e)) ∧
      (eventExists events e = true →
        preUpdateOne events q (some up) = Except.ok { q with runSettersOnQuery := true })) ∧
    (up.eventIdTop = none →
      preUpdateOne events q (some up) = Except.ok { q with runSettersOnQuery := true }) := by
  refine ⟨?_, ?_, ?_⟩
  · rintro (htop | ⟨htop, hset⟩)
    · exact ⟨fun h => by simp [preFindOneAndUpdate, htop, h],
        fun h => by simp [preFindOneAndUpdate, htop, h]⟩
    · exact ⟨fun h => by simp [preFindOneAndUpdate, htop, hset, h],
        fun h => by simp [preFindOneAndUpdate, htop, hset, h]⟩
  · intro htop
    exact ⟨fun h => by simp [preUpdateOne, htop, h],
      fun h => by simp [preUpdateOne, htop, h]⟩
  · intro htop
    simp [preUpdateOne, htop]

/-- C1 witness: a top-level eventId of an existing Event passes the
findOneAndUpdate check. -/
theorem claim1_witness :
    preFindOneAndUpdate [3] ⟨false⟩ (some ⟨some 3, none, none⟩) = Except.ok ⟨true⟩ :=
  ((claim1_amended [3] ⟨false⟩ ⟨some 3, none, none⟩ 3).1 (Or.inl rfl)).2 (by decide)

/-- C1 counterexample: no Event with id 5 exists, yet an updateOne whose
payload carries the new eventId only inside `$set` succeeds with no check;
the same payload on the findOneAndUpdate path is rejected. -/
theorem claim1_counterexample :
    eventExists [] 5 = false ∧
    preUpdateOne [] ⟨false⟩ (some ⟨none, some 5, none⟩) = Except.ok ⟨true⟩ ∧
    preFindOneAndUpdate [] ⟨false⟩ (some ⟨none, some 5, none⟩) =
      Except.error (updateErrMsg 5) := by
  decide

/-- C2: every successful filter-based update hook yields query options with
`runSettersOnQuery` forced on, making the stored email identical to the
document-save path; in particular "TEST@EXAMPLE.COM" is stored as
"test@example.com" on both paths. -/
theorem claim2_email_setters (events : List Nat) (q q2 : QueryOpts) (u : Option UpdatePayload) :
    ((preFindOneAndUpdate events q u = Except.ok q2 ∨ preUpdateOne events q u = Except.ok q2) →
      q2.runSettersOnQuery = true ∧ ∀ v, queryUpdateEmail q2 v = savePathEmail v) ∧
    savePathEmail "TEST@EXAMPLE.COM" = "test@example.com" ∧
    queryUpdateEmail ⟨true⟩ "TEST@EXAMPLE.COM" = "test@example.com" ∧
    queryUpdateEmail ⟨false⟩ "TEST@EXAMPLE.COM" = "TEST@EXAMPLE.COM" := by
  have hgoal : ∀ q3 : QueryOpts, q3.runSettersOnQuery = true →
      q3.runSettersOnQuery = true ∧ ∀ v, queryUpdateEmail q3 v = savePathEmail v := by
    intro q3 hq
    exact ⟨hq, fun v => by simp [queryUpdateEmail, savePathEmail, hq]⟩
  refine ⟨?_, by decide, by decide, by decide⟩
  rintro (h | h)
  · rw [preFindOneAndUpdate.eq_def] at h
    split at h
    · split at h
      · injection h with h; subst h; exact hgoal _ rfl
      · exact absurd h (by simp)
    · injection h with h; subst h; exact hgoal _ rfl
  · rw [preUpdateOne.eq_def] at h
    split at h
    · injection h with h; subst h; exact hgoal _ rfl
    · split at h
      · split at h
        · injection h with h; subst h; exact hgoal _ rfl
        · exact absurd h (by simp)
      · injection h with h; subst h; exact hgoal _ rfl

/-- C2 witness: with the forced option, the filter-update path stores the
lower-cased email exactly as a save would. -/
theorem claim2_witness :
    queryUpdateEmail ⟨true⟩ "TEST@EXAMPLE.COM" = savePathEmail "TEST@EXAMPLE.COM" :=
  ((claim2_email_setters [] ⟨false⟩ ⟨true⟩ none).1 (Or.inl (by decide))).2 "TEST@EXAMPLE.COM"

/-! ### The memoizing connection helper -/

/-- The eventual result of one underlying `mongoose.connect` attempt. -/
inductive Outcome where
  | success (c : Nat)
  | failure (e : Nat)
deriving DecidableEq

/-- The cached state of the helper: the resolved connection, and the
memoized in-flight promise (identified with its eventual outcome). -/
structure Cache where
  conn : Option Nat
  promise : Option Outcome
deriving DecidableEq

/-- One call of `connectDB` (src/lib/mongodb.ts, lines 36–65): return the
cached connection when present; otherwise reuse the memoized promise or
start a fresh attempt with outcome `fresh`, then await it — caching the
connection on success, clearing the promise and rethrowing on failure.
Returns the cache after the call, the call's result, and whether a new
underlying connection attempt was started. -/
def connectDB (st : Cache) (fresh : Outcome) : Cache × Except Nat Nat × Bool :=
  match st.conn with
  | some c => (st, Except.ok c, false)
  | none =>
    match st.promise with
    | some p =>
      match p with
      | Outcome.success c => ({ conn := some c, promise := some p }, Except.ok c, false)
      | Outcome.failure e => ({ conn := none, promise := none }, Except.error e, false)
    | none =>
      match fresh with
      | Outcome.success c => ({ conn := some c, promise := some fresh }, Except.ok c, true)
      | Outcome.failure e => ({ conn := none, promise := none }, Except.error e, true)

/-- C9: a call with a cached connection or a memoized promise starts no new
underlying attempt and returns the memoized result; a failure clears the
memoized promise (leaving no connection cached) before the error is
surfaced, so the next call starts a fresh attempt. -/
theorem claim9_connect_memo (st : Cache) (o : Outcome) :
    (∀ c, st.conn = some c → connectDB st o = (st, Except.ok c, false)) ∧
    (∀ c, st.conn = none → st.promise = some (Outcome.success c) →
      connectDB st o =
        ({ conn := some c, promise := some (Outcome.success c) }, Except.ok c, false)) ∧
    (∀ e, st.conn = none → st.promise = some (Outcome.failure e) →
      connectDB st o = ({ conn := none, promise := none }, Except.error e, false)) ∧
    (st.conn = none → st.promise = none → (connectDB st o).2.2 = true) ∧
    (∀ e, st.conn = none → st.promise = none → o = Outcome.failure e →
      connectDB st o = ({ conn := none, promise := none }, Except.error e, true)) ∧
    (∀ c, st.conn = none → st.promise = none → o = Outcome.success c →
      connectDB st o = ({ conn := some c, promise := some o }, Except.ok c, true)) := by
  refine ⟨?_, ?_, ?_, ?_, ?_, ?_⟩
  · intro c h; simp [connectDB, h]
  · intro c h1 h2; simp [connectDB, h1, h2]
  · intro e h1 h2; simp [connectDB, h1, h2]
  · intro h1 h2; cases o <;> simp [connectDB, h1, h2]
  · intro e h1 h2 h3; simp [connectDB, h1, h2, h3]
  · intro c h1 h2 h3; simp [connectDB, h1, h2, h3]

/-- C9 witness: the failure of a fresh attempt leaves an empty cache and a
retry then starts (and memoizes) a new attempt. -/
theorem claim9_witness :
    connectDB ⟨none, none⟩ (Outcome.failure 9) = (⟨none, none⟩, Except.error 9, true) ∧
    connectDB ⟨none, none⟩ (Outcome.success 4) =
      (⟨some 4, some (Outcome.success 4)⟩, Except.ok 4, true) :=
  ⟨(claim9_connect_memo ⟨none, none⟩ (Outcome.failure 9)).2.2.2.2.1 9 rfl rfl rfl,
    (claim9_connect_memo ⟨none, none⟩ (Outcome.success 4)).2.2.2.2.2 4 rfl rfl rfl⟩

/-- The two cache stores of the second revision: the HMR-persisted globals
(used in development) and the module-level variables (used in
production). -/
structure TwoCaches where
  g : Cache
  m : Cache
deriving DecidableEq

/-- One call of the second revision of the helper (src/unnamed/part_000,
lines 32–80): the identical algorithm, but reading and writing through
accessors that select the dev globals (`useGlobal = true`) or the
production module variables; the dev-only `undefined`-to-`null`
initialization of the globals is absorbed by the `Option` state. -/
def connectDB2 (useGlobal : Bool) (st : TwoCaches) (fresh : Outcome) :
    TwoCaches × Except Nat Nat × Bool :=
  match (if useGlobal then st.g.conn else st.m.conn) with
  | some c => (st, Except.ok c, false)
  | none =>
    match (if useGlobal then st.g.promise else st.m.promise) with
    | some p =>
      match p with
      | Outcome.success c =>
        ((if useGlobal then { st with g := { conn := some c, promise := some p } }
          else { st with m := { conn := some c, promise := some p } }), Except.ok c, false)
      | Outcome.failure e =>
        ((if useGlobal then { st with g := { conn := none, promise := none } }
          else { st with m := { conn := none, promise := none } }), Except.error e, false)
    | none =>
      match fresh with
      | Outcome.success c =>
        ((if useGlobal then { st with g := { conn := some c, promise := some fresh } }
          else { st with m := { conn := some c, promise := some fresh } }), Except.ok c, true)
      | Outcome.failure e =>
        ((if useGlobal then { st with g := { conn := none, promise := none } }
          else { st with m := { conn := none, promise := none } }), Except.error e, true)

theorem connectDB2_step (ug : Bool) (st : TwoCaches) (o : Outcome) :
    (connectDB2 ug st o).2 = (connectDB (if ug then st.g else st.m) o).2 ∧
    (if ug then (connectDB2 ug st o).1.g else (connectDB2 ug st o).1.m) =
      (connectDB (if ug then st.g else st.m) o).1 ∧
    (if ug then (connectDB2 ug st o).1.m else (connectDB2 ug st o).1.g) =
      (if ug then st.m else st.g) := by
  cases ug
  · rcases st with ⟨g, ⟨mc, mp⟩⟩
    cases mc
    · cases mp
      · cases o <;> simp [connectDB, connectDB2]
      · rename_i p; cases p <;> simp [connectDB, connectDB2]
    · simp [connectDB, connectDB2]
  · rcases st with ⟨⟨gc, gp⟩, m⟩
    cases gc
    · cases gp
      · cases o <;> simp [connectDB, connectDB2]
      · rename_i p; cases p <;> simp [connectDB, connectDB2]
    · simp [connectDB, connectDB2]

/-- The sequence of results of repeated `connectDB` calls whose underlying
attempts resolve as the given outcomes. -/
def runSeq (st : Cache) : List Outcome → List (Except Nat Nat)
  | [] => []
  | o :: os => (connectDB st o).2.1 :: runSeq (connectDB st o).1 os

/-- The same call sequence against the second revision. -/
def runSeq2 (ug : Bool) (st : TwoCaches) : List Outcome → List (Except Nat Nat)
  | [] => []
  | o :: os => (connectDB2 ug st o).2.1 :: runSeq2 ug (connectDB2 ug st o).1 os

theorem runSeq_equiv (ug : Bool) : ∀ (os : List Outcome) (st : TwoCaches),
    runSeq2 ug st os = runSeq (if ug then st.g else st.m) os := by
  intro os
  induction os with
  | nil => intro st; rfl
  | cons o2 os2 ih =>
    intro st
    obtain ⟨g1, g2, g3⟩ := connectDB2_step ug st o2
    rw [runSeq, runSeq2, ← g2, ih]
    rw [congrArg Prod.fst g1]

/-- C10: the two revisions of connectDB are observationally equivalent: on
every call they return the same result, agree on whether a new underlying
attempt starts, and leave the cache they use in the same state (the unused
store untouched); hence every call sequence with the same underlying
outcomes returns the same result list. -/
theorem claim10_connect_equiv (ug : Bool) (st : TwoCaches) (o : Outcome) (os : List Outcome) :
    (connectDB2 ug st o).2 = (connectDB (if ug then st.g else st.m) o).2 ∧
    (if ug then (connectDB2 ug st o).1.g else (connectDB2 ug st o).1.m) =
      (connectDB (if ug then st.g else st.m) o).1 ∧
    (if ug then (connectDB2 ug st o).1.m else (connectDB2 ug st o).1.g) =
      (if ug then st.m else st.g) ∧
    runSeq2 ug st os = runSeq (if ug then st.g else st.m) os := by
  obtain ⟨h1, h2, h3⟩ := connectDB2_step ug st o
  exact ⟨h1, h2, h3, runSeq_equiv ug os st⟩

example : normalizeDate "2025-02-30" = .error dateInvalidMsg := by decide
example : normalizeDate "2025-1-5" = .error datePatternMsg := by decide
example : normalizeDate "2025-02-28" = .ok "2025-02-28" := by decide
example : normalizeDate "2024-02-29" = .ok "2024-02-29" := by decide
example : normalizeDate "2025-04-31" = .error dateInvalidMsg := by decide
example : isOkE (normalizeDate "0099-01-01") = false := by decide
example : normalizeDate "0150-01-01" = .ok "150-01-01" := by decide

end DevEvents
